import Mathlib

/-!
# Verification of the RCA HIDDEN 2025 AR point-cloud experience

Shallow embedding of the placement state machine, uniform registry,
point-cloud loader and per-frame update logic of the snapshot, together
with proofs settling the frozen claims about it.

Numeric values are modelled over `ℚ`; JavaScript 32-bit integer
operations (used by the xorshift role hash) are modelled over `Nat`
with explicit reduction modulo `2 ^ 32` and explicit two's-complement
handling where the source relies on signed shifts.
-/

namespace Hidden

/-- A 3-component vector of rationals (Three.js `Vector3` / shader `vec3`). -/
structure Vec3 where
  x : ℚ
  y : ℚ
  z : ℚ
deriving DecidableEq, Repr

/-- Componentwise addition, as in `points.position.x += …` etc. -/
def Vec3.add (a b : Vec3) : Vec3 := ⟨a.x + b.x, a.y + b.y, a.z + b.z⟩

/-- A quaternion (Three.js `Quaternion`, used for the reticle orientation). -/
structure Quat where
  x : ℚ
  y : ℚ
  z : ℚ
  w : ℚ
deriving DecidableEq, Repr

/-- A hit-test pose as delivered to the session callbacks:
`{ position: pose.transform.position, orientation: pose.transform.orientation }`
(webxr-session.js, final variant, lines 401–405). -/
structure Pose where
  position : Vec3
  orientation : Quat
deriving DecidableEq, Repr

/-! ## Colour normalisation (point-cloud-loader.js / part_007, lines 72–84)

```js
const colorArr = geometry.attributes.color.array;
let needsNormalise = false;
for (let i = 0; i < Math.min(colorArr.length, 30); i++) {
  if (colorArr[i] > 1.0) { needsNormalise = true; break; }
}
if (needsNormalise) {
  for (let i = 0; i < colorArr.length; i++) {
    colorArr[i] /= 255;
  }
}
```
-/

/-- The sampling loop: scan the first `min(length, 30)` components and set the
flag as soon as one exceeds `1.0` (the `break` makes it an existential over the
first 30 components). -/
def needsNormalise (colorArr : List ℚ) : Bool :=
  (colorArr.take 30).any (fun c => decide (1 < c))

/-- The normalisation step applied to the colour buffer at load time:
divide every component by 255 iff the sampling loop set the flag. -/
def normalizeColors (colorArr : List ℚ) : List ℚ :=
  if needsNormalise colorArr then colorArr.map (fun c => c / 255) else colorArr

/-! ## particleRole assignment (part_007, lines 92–102)

```js
const roles = new Float32Array(vertexCount);
let seed = 0xdeadbeef;
for (let i = 0; i < vertexCount; i++) {
  seed = (seed ^ (seed << 13)) >>> 0;
  seed = (seed ^ (seed >> 17)) >>> 0;
  seed = (seed ^ (seed << 5))  >>> 0;
  roles[i] = (seed / 0xffffffff) < 0.30 ? 1.0 : 0.0;
}
```

JavaScript `<<`/`^` convert to int32 and `>>> 0` converts back to uint32,
so `x << k` on a uint32 bit pattern is `x * 2 ^ k % 2 ^ 32` and `^` is a
plain 32-bit XOR of bit patterns.  `>>` is an *arithmetic* shift on the
int32 view: for `s ≥ 2 ^ 31` the sign bit is replicated, so the resulting
uint32 bit pattern is `s / 2 ^ 17 + (2 ^ 32 - 2 ^ 15)`.
-/

/-- JS `(s << k) | 0` viewed as a uint32 bit pattern, for a uint32 input. -/
def jsShl (k : Nat) (s : Nat) : Nat := (s * 2 ^ k) % 4294967296

/-- JS `s >> 17` (arithmetic shift on the int32 view) viewed as a uint32
bit pattern, for a uint32 input. -/
def jsShr17 (s : Nat) : Nat :=
  if s < 2147483648 then s / 131072 else s / 131072 + 4294934528

/-- One iteration of the xorshift loop body (the three `seed = …` lines). -/
def xorshiftStep (s : Nat) : Nat :=
  let s1 := Nat.xor s (jsShl 13 s)
  let s2 := Nat.xor s1 (jsShr17 s1)
  Nat.xor s2 (jsShl 5 s2)

/-- `(seed / 0xffffffff) < 0.30 ? 1.0 : 0.0`.  For integer seeds below
`2 ^ 32` the double-precision comparison agrees with the exact rational
one (the grid of ratios `k / 0xffffffff` keeps a distance `≥ 2⁻³³` from
`0.30`, far above double rounding error). -/
def particleRole (seed : Nat) : ℚ :=
  if (seed : ℚ) / 4294967295 < 3 / 10 then 1 else 0

/-- The role array produced by running the loop from a given seed for a
given number of points (seed is stepped before each assignment). -/
def rolesFrom (seed : Nat) : Nat → List ℚ
  | 0 => []
  | n + 1 =>
    let s := xorshiftStep seed
    particleRole s :: rolesFrom s n

/-- The fixed seed constant `0xdeadbeef`. -/
def roleSeed : Nat := 3735928559

/-- `particleRole` assignment over `n` points exactly as the loader runs it. -/
def assignRoles (n : Nat) : List ℚ := rolesFrom roleSeed n

/-! ## Opacity fade-in (app.js, final variant, lines 384–412)

```js
uniforms.uOpacity.value = 0.0;
const fadeDuration = 2000;
function tick() {
  const elapsed = performance.now() - startTime;
  const t = Math.min(elapsed / fadeDuration, 1.0);
  uniforms.uOpacity.value = t < 0.5
    ? 4 * t * t * t
    : 1 - Math.pow(-2 * t + 2, 3) / 2;
  if (t < 1.0) { … requestAnimationFrame(tick); } else {
    uniforms.uOpacity.value = 1.0; …
  }
}
```
-/

/-- The fixed fade duration in milliseconds. -/
def fadeDuration : ℚ := 2000

/-- The ease-in-out cubic curve used by the fade ticks. -/
def easeInOutCubic (t : ℚ) : ℚ :=
  if t < 1 / 2 then 4 * t * t * t else 1 - (-2 * t + 2) ^ 3 / 2

/-- The value held by the opacity entry at the end of a tick that observed
`elapsed` milliseconds since the fade started: the curve value for `t < 1`,
and exactly `1.0` once `t` reaches `1` (the final branch re-assigns `1.0`). -/
def opacityAtTick (elapsed : ℚ) : ℚ :=
  let t := min (elapsed / fadeDuration) 1
  if t < 1 then easeInOutCubic t else 1

/-! ## Placement session state machine
(webxr-session.js final variant + app.js final variant)

The session-scoped mutable cells of the two modules:
`placed` and `_currentHitPose`, the reticle (`_reticle` non-null, its
`visible` flag and transform), `hitTestSource` non-null
(webxr-session.js), and `treePlaced`, `treeData` non-null, the tree mesh
membership in the scene and its mesh-level transform
(`points.position` / uniform `points.scale`) plus the opacity value
(app.js).  `transformWrites` is a ghost counter incremented at the two
code sites that write the mesh-level transform: the load-time
centring/scale (part_007 lines 144–149, counted by `initState`) and the
placement translation (app.js lines 301–304). -/
structure SessState where
  placed : Bool
  currentHitPose : Option Pose
  reticlePresent : Bool
  reticleVisible : Bool
  reticlePos : Vec3
  reticleQuat : Quat
  hitTestActive : Bool
  treeLoaded : Bool
  treePlaced : Bool
  treeInScene : Bool
  meshPos : Vec3
  meshScale : ℚ
  uOpacity : ℚ
  transformWrites : Nat
deriving DecidableEq, Repr

/-- app.js (final variant) lines 289–334, `placeTree(hitPose)`:
guard on `treePlaced || !treeData`; otherwise set `treePlaced`, add the
hit position (with `floorOffset = 1.05` subtracted on y) onto the
existing mesh offset, add the tree to the scene, start the opacity
fade-in (which writes opacity 0), and stop hit-testing. -/
def placeTree (s : SessState) (hitPose : Pose) : SessState :=
  if s.treePlaced || !s.treeLoaded then s
  else
    { s with
      treePlaced := true
      meshPos := ⟨s.meshPos.x + hitPose.position.x,
                  s.meshPos.y + hitPose.position.y - 21 / 20,
                  s.meshPos.z + hitPose.position.z⟩
      treeInScene := true
      uOpacity := 0
      hitTestActive := false
      transformWrites := s.transformWrites + 1 }

/-- webxr-session.js (final variant) lines 333–349, the `select` handler:
`if (placed || !_currentHitPose) return;` then set `placed`, remove and
null the reticle, and hand `_currentHitPose` to `callbacks.onPlace`,
which is `placeTree` (app.js lines 270–273). -/
def selectStep (s : SessState) : SessState :=
  if s.placed then s
  else
    match s.currentHitPose with
    | none => s
    | some pose => placeTree { s with placed := true, reticlePresent := false } pose

/-- webxr-session.js (final variant) lines 368–419, the hit-test part of
`_onFrame`: runs only while `hitTestSource && _reticle`; with zero
results it hides the reticle and nulls `_currentHitPose`; with results it
takes `results[0]` and, iff its pose resolves, shows the reticle at the
pose and stores the pose as `_currentHitPose` (an unresolvable first
pose leaves everything unchanged). -/
def frameStep (s : SessState) (hits : List (Option Pose)) : SessState :=
  if s.hitTestActive && s.reticlePresent then
    match hits with
    | [] => { s with reticleVisible := false, currentHitPose := none }
    | some pose :: _ =>
        { s with
          reticleVisible := true
          reticlePos := pose.position
          reticleQuat := pose.orientation
          currentHitPose := some pose }
    | none :: _ => s
  else s

/-- An observable event of one session: a rendered frame carrying the
hit-test results (each with its resolved pose, or `none` when
`hit.getPose(referenceSpace)` returns null), or a user confirmation tap
(the XR `select` event). -/
inductive Event
  | frame (hits : List (Option Pose))
  | select

/-- One step of the session under an event. -/
def step (s : SessState) : Event → SessState
  | Event.frame hits => frameStep s hits
  | Event.select => selectStep s

/-- Run a whole event sequence. -/
def run (s : SessState) : List Event → SessState
  | [] => s
  | e :: evs => run (step s e) evs

/-! ## Point-cloud loader (part_007, final variant of point-cloud-loader.js)

The final loader never writes `geometry.attributes.position` (its own
comment: "CRITICAL: Vertex positions are NOT modified"); centring and
scale normalisation go to `points.position` / `points.scale`
(lines 144–149).  The superseded draft in js/point-cloud-loader.js
(lines 104–112) instead rewrote the vertex array in place; the final
variant is the one paired with the final shader pipeline (it is the only
variant producing the `particleRole` attribute the final fragment shader
consumes as `vIsFirefly`). -/

/-- Componentwise minimum corner of the bounding box
(`geometry.computeBoundingBox()`). -/
def bboxMin (ps : List Vec3) : Vec3 :=
  match ps with
  | [] => ⟨0, 0, 0⟩
  | p :: rest =>
    rest.foldl (fun acc q => ⟨min acc.x q.x, min acc.y q.y, min acc.z q.z⟩) p

/-- Componentwise maximum corner of the bounding box. -/
def bboxMax (ps : List Vec3) : Vec3 :=
  match ps with
  | [] => ⟨0, 0, 0⟩
  | p :: rest =>
    rest.foldl (fun acc q => ⟨max acc.x q.x, max acc.y q.y, max acc.z q.z⟩) p

/-- What the loader returns: the geometry buffers and the mesh-level
transform it installed. -/
structure LoaderResult where
  positions : List Vec3
  colors : List ℚ
  roles : List ℚ
  meshPos : Vec3
  meshScale : ℚ

/-- part_007 `loadPointCloud`: colour normalisation (or default grey 0.8
when the file has no colours), deterministic `particleRole` assignment,
bounding box, and the single mesh-level centring/scale transform
(`points.position.set(-centre…)`, `points.scale.setScalar(13 / maxDim)`).
The vertex position buffer is returned exactly as read from the file —
no statement of the function writes it. -/
def loadPointCloud (filePositions : List Vec3) (fileColors : Option (List ℚ)) :
    LoaderResult :=
  let colors := match fileColors with
    | some c => normalizeColors c
    | none => List.replicate (3 * filePositions.length) (4 / 5)
  let roles := assignRoles filePositions.length
  let mn := bboxMin filePositions
  let mx := bboxMax filePositions
  let centre : Vec3 := ⟨(mn.x + mx.x) / 2, (mn.y + mx.y) / 2, (mn.z + mx.z) / 2⟩
  let size : Vec3 := ⟨mx.x - mn.x, mx.y - mn.y, mx.z - mn.z⟩
  { positions := filePositions
    colors := colors
    roles := roles
    meshPos := ⟨-centre.x, -centre.y, -centre.z⟩
    meshScale := 13 / max size.x (max size.y size.z) }

/-- The session state right after `startWebXRSession` has set everything
up in a fresh WebXR session: reticle created invisible and added,
hit-test source live, `placed`/`treePlaced` reset by `startWorldAR`,
tree removed from the scene, mesh transform as installed by the loader
(the first of the two transform writes, hence `transformWrites = 1`). -/
def initState (L : LoaderResult) : SessState :=
  { placed := false
    currentHitPose := none
    reticlePresent := true
    reticleVisible := false
    reticlePos := ⟨0, 0, 0⟩
    reticleQuat := ⟨0, 0, 0, 1⟩
    hitTestActive := true
    treeLoaded := true
    treePlaced := false
    treeInScene := false
    meshPos := L.meshPos
    meshScale := L.meshScale
    uOpacity := 0
    transformWrites := 1 }

/-! ## Uniform registry (src/uniformsRegistry.js) and shader uniform names -/

/-- The value kinds held by registry entries (numeric, colour, vector,
texture handle — `{ value: null }` for textures). -/
inductive UniformValue
  | num (v : ℚ)
  | color (r g b : ℚ)
  | vec2 (x y : ℚ)
  | vec3Pair
  | tex
deriving DecidableEq, Repr

/-- The registry object of src/uniformsRegistry.js lines 3–37, in
declaration order. -/
def uniformsRegistry : List (String × UniformValue) :=
  [("uTime", UniformValue.num 0),
   ("uPointSize", UniformValue.num 3),
   ("uAmbientBrightness", UniformValue.num (3 / 10)),
   ("uGlowIntensity", UniformValue.num 1),
   ("uGlowColour", UniformValue.color (85 / 100) (95 / 100) 1),
   ("uRefractionStrength", UniformValue.num (15 / 100)),
   ("uBackgroundTex", UniformValue.tex),
   ("uFlockTex", UniformValue.tex),
   ("uFlockStrength", UniformValue.num 1),
   ("uAudioBass", UniformValue.num 0),
   ("uAudioMid", UniformValue.num 0),
   ("uAudioHigh", UniformValue.num 0),
   ("uTouchPos", UniformValue.vec2 0 0),
   ("uTouchActive", UniformValue.num 0),
   ("uHandPos", UniformValue.vec3Pair),
   ("uHandPresence", UniformValue.num 0),
   ("uHandRadius", UniformValue.num (3 / 10)),
   ("uFadeProgress", UniformValue.num 0),
   ("uTreeHeight", UniformValue.num 1),
   ("uEmissiveIntensity", UniformValue.num 1)]

/-- The registry key set. -/
def registryKeys : List String := uniformsRegistry.map Prod.fst

/-- Uniform names referenced by the vertex shader source (part_010). -/
def vertexUniformNames : List String :=
  ["uPointSize", "uFadeProgress", "uTreeHeight", "uTime"]

/-- Uniform names referenced by the final fragment shader variant
(shaders/pointCloud.frag lines 51–79). -/
def fragUniformNamesFinal : List String :=
  ["glowIntensity", "glowRadius", "uOpacity", "xrLightColor", "xrLightIntensity"]

/-- Uniform names referenced by the earlier fragment shader variant
(shaders/pointCloud.frag lines 1–50). -/
def fragUniformNamesEarly : List String :=
  ["uEmissiveIntensity", "uGlowIntensity", "uAmbientBrightness",
   "uRefractionStrength", "uBackgroundTex", "uTime"]

/-- The completeness invariant claimed by the spec: every shader-referenced
name has a registry entry. -/
def uniformCompleteness (shaderNames : List String) : Bool :=
  shaderNames.all (fun n => registryKeys.contains n)

/-- scene.js lines 48–50, `updateUniforms`:
`uniforms.time.value = performance.now() * 0.001;` — a lookup of the key
`"time"` on the registry object followed by a write through it.  The
lookup of a missing key yields `undefined` and the write then throws, so
the update is modelled as fallible: `none` when the key is absent. -/
def updateUniforms (now : ℚ) (reg : List (String × UniformValue)) :
    Option (List (String × UniformValue)) :=
  if (reg.map Prod.fst).contains "time" then
    some (reg.map fun kv =>
      if kv.1 = "time" then (kv.1, UniformValue.num (now * (1 / 1000))) else kv)
  else none

/-! ## Ambient light estimate (spec-modelled) -/

/-- An environment light estimate: ambient colour and intensity. -/
structure LightEstimate where
  color : Vec3
  intensity : ℚ
deriving DecidableEq, Repr

/-- Modelled from the spec: the snapshot contains no light-estimation
code — the registry iteration declaring the `xrLightColor` /
`xrLightIntensity` entries consumed by the final fragment shader
(pointCloud.frag lines 54–55) is absent from the source tree; only the
consumer is present.  Per the spec (§4.1 failure semantics, §6, §8.6):
when the light-estimation capability is unavailable the ambient estimate
defaults to neutral white at unit intensity. -/
def ambientLightFallback (estimate : Option LightEstimate) : LightEstimate :=
  match estimate with
  | some e => e
  | none => { color := ⟨1, 1, 1⟩, intensity := 1 }

/-- The final fragment shader's consumption of the ambient estimate
(pointCloud.frag line 74: `finalColor *= xrLightColor * xrLightIntensity`). -/
def applyAmbient (est : LightEstimate) (c : Vec3) : Vec3 :=
  ⟨c.x * est.color.x * est.intensity,
   c.y * est.color.y * est.intensity,
   c.z * est.color.z * est.intensity⟩

/-! ## Lemmas about the loader primitives -/

lemma needsNormalise_eq_false {c : List ℚ} (h : ∀ x ∈ c, x ≤ 1) :
    needsNormalise c = false := by
  simp only [needsNormalise, List.any_eq_false, decide_eq_true_eq, not_lt]
  intro x hx
  exact h x (List.mem_of_mem_take hx)

lemma needsNormalise_eq_true {c : List ℚ} (h : ∃ x ∈ c.take 30, 1 < x) :
    needsNormalise c = true := by
  obtain ⟨x, hx, hx1⟩ := h
  simp only [needsNormalise, List.any_eq_true, decide_eq_true_eq]
  exact ⟨x, hx, hx1⟩

lemma normalizeColors_of_le_one {c : List ℚ} (h : ∀ x ∈ c, x ≤ 1) :
    normalizeColors c = c := by
  simp [normalizeColors, needsNormalise_eq_false h]

lemma rolesFrom_take (s : Nat) :
    ∀ n m : Nat, n ≤ m → rolesFrom s n = (rolesFrom s m).take n := by
  intro n
  induction n generalizing s with
  | zero => intro m _; simp [rolesFrom]
  | succ k ih =>
    intro m hm
    cases m with
    | zero => omega
    | succ j =>
      simp only [rolesFrom, List.take_succ_cons]
      exact congrArg _ (ih (xorshiftStep s) j (Nat.succ_le_succ_iff.mp hm))

lemma takeGet {α : Type} :
    ∀ (l : List α) (n i : Nat), i < n → (l.take n).get? i = l.get? i := by
  intro l
  induction l with
  | nil => intro n i _; simp
  | cons a t ih =>
    intro n i hi
    cases n with
    | zero => omega
    | succ k =>
      cases i with
      | zero => simp
      | succ j => simpa using ih k j (Nat.succ_lt_succ_iff.mp hi)

lemma easeInOutCubic_mono {a b : ℚ} (ha : 0 ≤ a) (hab : a ≤ b) (hb : b ≤ 1) :
    easeInOutCubic a ≤ easeInOutCubic b := by
  unfold easeInOutCubic
  split_ifs with h1 h2 h2
  · -- both in the first half: 4a³ ≤ 4b³ because the cube is monotone
    have key : 0 ≤ (b - a) * (a * a + a * b + b * b) := by
      apply mul_nonneg (by linarith)
      nlinarith [sq_nonneg (a + b), sq_nonneg a, sq_nonneg b]
    nlinarith [key]
  · -- a below the midpoint, b at or above it: compare through the value 1/2
    have ha2 : a ≤ 1 / 2 := le_of_lt h1
    have hb2 : 1 / 2 ≤ b := not_lt.mp h2
    have hu0 : (0 : ℚ) ≤ -2 * b + 2 := by linarith
    have hu1 : -2 * b + 2 ≤ 1 := by linarith
    have haa : a * a ≤ 1 / 4 := by nlinarith
    have e1 : 4 * a * a * a ≤ 1 / 2 := by
      nlinarith [mul_le_mul_of_nonneg_right haa ha]
    have e2 : (-2 * b + 2) ^ 3 ≤ 1 := by nlinarith [mul_nonneg hu0 hu0]
    nlinarith
  · exact absurd (lt_of_le_of_lt hab h2) h1
  · -- both in the second half: (2-2b)³ ≤ (2-2a)³
    have hv0 : (0 : ℚ) ≤ -2 * b + 2 := by linarith
    have key : 0 ≤ ((-2 * a + 2) - (-2 * b + 2)) *
        ((-2 * b + 2) * (-2 * b + 2) + (-2 * b + 2) * (-2 * a + 2) +
          (-2 * a + 2) * (-2 * a + 2)) := by
      apply mul_nonneg (by linarith)
      nlinarith [sq_nonneg ((-2 * b + 2) + (-2 * a + 2)), sq_nonneg (-2 * b + 2),
        sq_nonneg (-2 * a + 2)]
    nlinarith [key]

lemma opacityAtTick_eq (e : ℚ) :
    opacityAtTick e = easeInOutCubic (min (e / fadeDuration) 1) := by
  unfold opacityAtTick
  by_cases h : min (e / fadeDuration) 1 < 1
  · simp [h]
  · have hmin : min (e / fadeDuration) 1 = 1 :=
      le_antisymm (min_le_right _ _) (not_lt.mp h)
    rw [if_neg h, hmin]
    norm_num [easeInOutCubic]

/-! ## Claim theorems: pure loader / animation functions -/

/-- C4: the loader's colour-normalisation step is idempotent and
range-correcting — a buffer already in the 0–1 range is left unchanged;
one application to a 0–255-encoded buffer (components in [0,255] with the
encoding detectable by the sampling loop, i.e. some sampled component
exceeds 1) yields components all in [0,1]; `[255,128,0]` maps to
`[1, 128/255, 0]`; and the division by 255 is applied exactly once —
re-applying the step to an already-normalised result changes nothing. -/
theorem C4_color_normalization :
    (∀ c : List ℚ, (∀ x ∈ c, 0 ≤ x ∧ x ≤ 1) → normalizeColors c = c) ∧
    (∀ c : List ℚ, (∀ x ∈ c, 0 ≤ x ∧ x ≤ 255) → (∃ x ∈ c.take 30, 1 < x) →
      ∀ y ∈ normalizeColors c, 0 ≤ y ∧ y ≤ 1) ∧
    normalizeColors [255, 128, 0] = [1, 128 / 255, 0] ∧
    (∀ c : List ℚ, (∀ x ∈ c, 0 ≤ x ∧ x ≤ 255) →
      normalizeColors (normalizeColors c) = normalizeColors c) := by
  refine ⟨?_, ?_, ?_, ?_⟩
  · intro c h
    exact normalizeColors_of_le_one fun x hx => (h x hx).2
  · intro c hrange hdet y hy
    rw [normalizeColors, needsNormalise_eq_true hdet, if_pos rfl] at hy
    obtain ⟨x, hx, rfl⟩ := List.mem_map.mp hy
    obtain ⟨hx0, hx255⟩ := hrange x hx
    constructor
    · positivity
    · rw [div_le_one (by norm_num)]; linarith
  · have hdet : needsNormalise [(255 : ℚ), 128, 0] = true :=
      needsNormalise_eq_true ⟨255, by simp, by norm_num⟩
    simp only [normalizeColors, hdet, if_true]
    norm_num
  · intro c hrange
    by_cases hdet : needsNormalise c = true
    · have h1 : normalizeColors c = c.map (fun x => x / 255) := by
        simp only [normalizeColors, hdet, if_true]
      rw [h1]
      apply normalizeColors_of_le_one
      intro y hy
      obtain ⟨x, hx, rfl⟩ := List.mem_map.mp hy
      rw [div_le_one (by norm_num)]
      exact (hrange x hx).2
    · have h1 : normalizeColors c = c := by
        simp [normalizeColors, hdet]
      rw [h1]
      exact h1

/-- Witness for C4 at concrete buffers: `[1/2, 1/5, 9/10]` is unchanged;
normalising `[255, 128, 0]` lands in [0,1]; a second application changes
nothing. -/
theorem C4_color_normalization_witness :
    normalizeColors [1 / 2, 1 / 5, 9 / 10] = [1 / 2, 1 / 5, 9 / 10] ∧
    (∀ y ∈ normalizeColors [255, 128, 0], 0 ≤ y ∧ y ≤ 1) ∧
    normalizeColors (normalizeColors [255, 128, 0]) =
      normalizeColors [255, 128, 0] :=
  ⟨C4_color_normalization.1 _ (by intro x hx; fin_cases hx <;> norm_num),
   C4_color_normalization.2.1 _ (by intro x hx; fin_cases hx <;> norm_num)
     ⟨255, by simp, by norm_num⟩,
   C4_color_normalization.2.2.2 _ (by intro x hx; fin_cases hx <;> norm_num)⟩

/-- C5: role assignment is deterministic — for a fixed point count and the
fixed seed constant `0xdeadbeef`, two runs of the xorshift-based
`particleRole` assignment produce identical role arrays, and the role a
given point index receives does not depend on anything but the index and
the seed (the value at index `i` agrees across runs over any point counts
that include `i`). -/
theorem C5_role_determinism :
    roleSeed = 0xdeadbeef ∧
    (∀ n : Nat, assignRoles n = assignRoles n) ∧
    (∀ n m i : Nat, i < n → n ≤ m →
      (assignRoles n).get? i = (assignRoles m).get? i) := by
  refine ⟨rfl, fun _ => rfl, ?_⟩
  intro n m i hin hnm
  rw [assignRoles, assignRoles, rolesFrom_take roleSeed n m hnm, takeGet _ n i hin]

/-- Witness for C5: the role at index 1 agrees between a 3-point run and a
10-point run. -/
theorem C5_role_determinism_witness :
    1 < 3 ∧ 3 ≤ 10 ∧ (assignRoles 3).get? 1 = (assignRoles 10).get? 1 :=
  ⟨by norm_num, by norm_num,
   C5_role_determinism.2.2 3 10 1 (by norm_num) (by norm_num)⟩

/-- C7: the opacity fade-in ramp has duration constant 2000 ms; a tick at
elapsed time 0 writes value 0; the written value is monotonically
non-decreasing in elapsed time; and the opacity entry equals exactly 1
once elapsed time reaches the duration. -/
theorem C7_opacity_fade :
    fadeDuration = 2000 ∧
    opacityAtTick 0 = 0 ∧
    (∀ a b : ℚ, 0 ≤ a → a ≤ b → opacityAtTick a ≤ opacityAtTick b) ∧
    (∀ e : ℚ, fadeDuration ≤ e → opacityAtTick e = 1) := by
  refine ⟨rfl, by norm_num [opacityAtTick, easeInOutCubic, fadeDuration], ?_, ?_⟩
  · intro a b ha hab
    rw [opacityAtTick_eq, opacityAtTick_eq]
    have hd : (0 : ℚ) < fadeDuration := by norm_num [fadeDuration]
    exact easeInOutCubic_mono (le_min (div_nonneg ha hd.le) zero_le_one)
      (min_le_min ((div_le_div_iff_of_pos_right hd).mpr hab) le_rfl)
      (min_le_right _ _)
  · intro e he
    have hd : (0 : ℚ) < fadeDuration := by norm_num [fadeDuration]
    have h1 : (1 : ℚ) ≤ e / fadeDuration := (one_le_div hd).mpr he
    rw [opacityAtTick, min_eq_right h1]
    norm_num

/-- Witness for C7: the ramp is monotone between 500 ms and 1500 ms and has
reached exactly 1 at 2500 ms. -/
theorem C7_opacity_fade_witness :
    (0 : ℚ) ≤ 500 ∧ (500 : ℚ) ≤ 1500 ∧
    opacityAtTick 500 ≤ opacityAtTick 1500 ∧
    fadeDuration ≤ 2500 ∧ opacityAtTick 2500 = 1 :=
  ⟨by norm_num, by norm_num,
   C7_opacity_fade.2.2.1 500 1500 (by norm_num) (by norm_num),
   by norm_num [fadeDuration],
   C7_opacity_fade.2.2.2 2500 (by norm_num [fadeDuration])⟩

/-! ## Lemmas about the session state machine -/

lemma frameStep_fixed (s : SessState) (hits : List (Option Pose)) :
    (frameStep s hits).placed = s.placed ∧
    (frameStep s hits).meshPos = s.meshPos ∧
    (frameStep s hits).meshScale = s.meshScale ∧
    (frameStep s hits).treePlaced = s.treePlaced ∧
    (frameStep s hits).treeLoaded = s.treeLoaded ∧
    (frameStep s hits).transformWrites = s.transformWrites := by
  cases hits with
  | nil =>
    by_cases h : (s.hitTestActive && s.reticlePresent) = true <;> simp [frameStep, h]
  | cons r rest =>
    cases r with
    | none =>
      by_cases h : (s.hitTestActive && s.reticlePresent) = true <;>
        simp [frameStep, h]
    | some pose =>
      by_cases h : (s.hitTestActive && s.reticlePresent) = true <;>
        simp [frameStep, h]

lemma selectStep_of_placed {s : SessState} (h : s.placed = true) :
    selectStep s = s := by
  simp [selectStep, h]

lemma selectStep_of_noPose {s : SessState} (h : s.currentHitPose = none) :
    selectStep s = s := by
  by_cases hp : s.placed = true
  · simp [selectStep, hp]
  · simp [selectStep, hp, h]

/-- The full effect of the first accepted confirmation. -/
lemma selectStep_effect {s : SessState} {pose : Pose} (hp : s.placed = false)
    (hc : s.currentHitPose = some pose) (htp : s.treePlaced = false)
    (htl : s.treeLoaded = true) :
    step s Event.select =
      { s with
        placed := true
        reticlePresent := false
        treePlaced := true
        meshPos := ⟨s.meshPos.x + pose.position.x,
                    s.meshPos.y + pose.position.y - 21 / 20,
                    s.meshPos.z + pose.position.z⟩
        treeInScene := true
        uOpacity := 0
        hitTestActive := false
        transformWrites := s.transformWrites + 1 } := by
  show selectStep s = _
  simp [selectStep, hp, hc, placeTree, htp, htl]

lemma run_fixed_of_placed :
    ∀ (evs : List Event) (s : SessState), s.placed = true →
      (run s evs).meshPos = s.meshPos ∧ (run s evs).meshScale = s.meshScale ∧
      (run s evs).treePlaced = s.treePlaced ∧ (run s evs).placed = true := by
  intro evs
  induction evs with
  | nil => intro s h; exact ⟨rfl, rfl, rfl, h⟩
  | cons e t ih =>
    intro s h
    cases e with
    | frame hits =>
      obtain ⟨h1, h2, h3, h4, _, _⟩ := frameStep_fixed s hits
      have hr := ih (frameStep s hits) (h1.trans h)
      exact ⟨hr.1.trans h2, hr.2.1.trans h3, hr.2.2.1.trans h4, hr.2.2.2⟩
    | select =>
      have hsel : run s (Event.select :: t) = run (selectStep s) t := rfl
      rw [hsel, selectStep_of_placed h]
      exact ih s h

lemma step_meshScale (s : SessState) (e : Event) :
    (step s e).meshScale = s.meshScale := by
  cases e with
  | frame hits => exact (frameStep_fixed s hits).2.2.1
  | select =>
    by_cases hp : s.placed = true
    · rw [show step s Event.select = selectStep s from rfl, selectStep_of_placed hp]
    · cases hc : s.currentHitPose with
      | none =>
        rw [show step s Event.select = selectStep s from rfl, selectStep_of_noPose hc]
      | some pose =>
        by_cases htp : s.treePlaced = true
        · show (selectStep s).meshScale = s.meshScale
          simp [selectStep, hp, hc, placeTree, htp]
        · by_cases htl : s.treeLoaded = true
          · have hp2 : s.placed = false := by revert hp; cases s.placed <;> simp
            have htp2 : s.treePlaced = false := by revert htp; cases s.treePlaced <;> simp
            rw [selectStep_effect hp2 hc htp2 htl]
          · show (selectStep s).meshScale = s.meshScale
            have htl2 : s.treeLoaded = false := by revert htl; cases s.treeLoaded <;> simp
            simp [selectStep, hp, hc, placeTree, htl2]

lemma run_meshScale :
    ∀ (evs : List Event) (s : SessState), (run s evs).meshScale = s.meshScale := by
  intro evs
  induction evs with
  | nil => intro s; rfl
  | cons e t ih => intro s; exact (ih (step s e)).trans (step_meshScale s e)

lemma step_writes_inv (s : SessState) (e : Event)
    (h : s.transformWrites = if s.treePlaced then 2 else 1) :
    (step s e).transformWrites = if (step s e).treePlaced then 2 else 1 := by
  cases e with
  | frame hits =>
    obtain ⟨_, _, _, h4, _, h6⟩ := frameStep_fixed s hits
    show (frameStep s hits).transformWrites =
      if (frameStep s hits).treePlaced then 2 else 1
    rw [h6, h4]
    exact h
  | select =>
    show (selectStep s).transformWrites =
      if (selectStep s).treePlaced then 2 else 1
    by_cases hp : s.placed = true
    · rw [selectStep_of_placed hp]
      exact h
    · cases hc : s.currentHitPose with
      | none =>
        rw [selectStep_of_noPose hc]
        exact h
      | some pose =>
        have hp2 : s.placed = false := by revert hp; cases s.placed <;> simp
        simp only [selectStep, hp2, Bool.false_eq_true, if_false, hc, placeTree]
        by_cases hguard : (s.treePlaced || !s.treeLoaded) = true
        · simp only [hguard, if_true]
          exact h
        · have htp : s.treePlaced = false := by
            revert hguard; cases s.treePlaced <;> simp
          simp only [hguard, if_false]
          rw [htp] at h
          simp [h]

lemma run_writes_inv :
    ∀ (evs : List Event) (s : SessState),
      s.transformWrites = (if s.treePlaced then 2 else 1) →
      (run s evs).transformWrites =
        (if (run s evs).treePlaced then 2 else 1) := by
  intro evs
  induction evs with
  | nil => intro s h; exact h
  | cons e t ih => intro s h; exact ih (step s e) (step_writes_inv s e h)

/-! ## Concrete states used by witnesses and counterexamples -/

/-- A concrete hit pose. -/
def p1 : Pose := ⟨⟨1, 1 / 2, -2⟩, ⟨0, 0, 0, 1⟩⟩

/-- A concrete mid-session state: tracking live, reticle shown on a hit,
candidate pose available, tree loaded but not yet placed. -/
def s1 : SessState :=
  { placed := false
    currentHitPose := some p1
    reticlePresent := true
    reticleVisible := true
    reticlePos := ⟨1, 1 / 2, -2⟩
    reticleQuat := ⟨0, 0, 0, 1⟩
    hitTestActive := true
    treeLoaded := true
    treePlaced := false
    treeInScene := false
    meshPos := ⟨-1, -1, -1⟩
    meshScale := 13 / 2
    uOpacity := 0
    transformWrites := 1 }

/-- A concrete scanning state with no candidate yet. -/
def s2 : SessState :=
  { placed := false
    currentHitPose := none
    reticlePresent := true
    reticleVisible := false
    reticlePos := ⟨0, 0, 0⟩
    reticleQuat := ⟨0, 0, 0, 1⟩
    hitTestActive := true
    treeLoaded := true
    treePlaced := false
    treeInScene := false
    meshPos := ⟨-1, -1, -1⟩
    meshScale := 13 / 2
    uOpacity := 0
    transformWrites := 1 }

/-! ## Claim theorems: state machine, registry, ambient fallback -/

/-- C1: placement is idempotent — a confirmation arriving when already
placed, or while the candidate pose is null, leaves the entire session
state unchanged; once placed, the point-cloud transform and the
placement flag stay fixed under every further event sequence; and the
first confirmation with a non-null candidate applies exactly one
placement transform (the hit position, with the fixed floor offset,
added onto the load-time mesh offset; scale untouched). -/
theorem C1_placement_idempotent :
    (∀ s : SessState, s.placed = true → step s Event.select = s) ∧
    (∀ s : SessState, s.currentHitPose = none → step s Event.select = s) ∧
    (∀ (s : SessState) (evs : List Event), s.placed = true →
      (run s evs).meshPos = s.meshPos ∧ (run s evs).meshScale = s.meshScale ∧
      (run s evs).treePlaced = s.treePlaced) ∧
    (∀ (s : SessState) (pose : Pose), s.placed = false →
      s.currentHitPose = some pose → s.treePlaced = false →
      s.treeLoaded = true →
      (step s Event.select).placed = true ∧
      (step s Event.select).treePlaced = true ∧
      (step s Event.select).meshPos =
        ⟨s.meshPos.x + pose.position.x, s.meshPos.y + pose.position.y - 21 / 20,
         s.meshPos.z + pose.position.z⟩ ∧
      (step s Event.select).meshScale = s.meshScale) := by
  refine ⟨?_, ?_, ?_, ?_⟩
  · intro s h
    exact selectStep_of_placed h
  · intro s h
    exact selectStep_of_noPose h
  · intro s evs h
    obtain ⟨h1, h2, h3, _⟩ := run_fixed_of_placed evs s h
    exact ⟨h1, h2, h3⟩
  · intro s pose hp hc htp htl
    rw [selectStep_effect hp hc htp htl]
    exact ⟨rfl, rfl, rfl, rfl⟩

/-- Witness for C1: from a concrete armed state, the first confirmation
places, and a second confirmation is a complete no-op. -/
theorem C1_placement_idempotent_witness :
    (step s1 Event.select).placed = true ∧
    step (step s1 Event.select) Event.select = step s1 Event.select := by
  have h4 := C1_placement_idempotent.2.2.2 s1 p1 rfl rfl rfl rfl
  exact ⟨h4.1, C1_placement_idempotent.1 _ h4.1⟩

/-- C3 (amended): while hit-testing is active and the reticle is live
(tree not yet placed), a frame with zero hit-test results clears the
candidate pose and hides the reticle regardless of previous state, and a
frame whose first result's pose resolves stores that pose as the
candidate and shows the reticle positioned/oriented at it. -/
theorem C3_no_hit_clears_candidate :
    (∀ s : SessState, s.hitTestActive = true → s.reticlePresent = true →
      (step s (Event.frame [])).currentHitPose = none ∧
      (step s (Event.frame [])).reticleVisible = false) ∧
    (∀ (s : SessState) (pose : Pose) (rest : List (Option Pose)),
      s.hitTestActive = true → s.reticlePresent = true →
      (step s (Event.frame (some pose :: rest))).currentHitPose = some pose ∧
      (step s (Event.frame (some pose :: rest))).reticleVisible = true ∧
      (step s (Event.frame (some pose :: rest))).reticlePos = pose.position ∧
      (step s (Event.frame (some pose :: rest))).reticleQuat =
        pose.orientation) := by
  constructor
  · intro s ha hr
    have hcond : (s.hitTestActive && s.reticlePresent) = true := by
      rw [ha, hr]; rfl
    constructor <;> simp [step, frameStep, hcond]
  · intro s pose rest ha hr
    have hcond : (s.hitTestActive && s.reticlePresent) = true := by
      rw [ha, hr]; rfl
    refine ⟨?_, ?_, ?_, ?_⟩ <;> simp [step, frameStep, hcond]

/-- Witness for C3 (amended): at a concrete armed state, a no-hit frame
hides the reticle and clears the candidate; a frame whose first result
resolves shows the reticle at the hit. -/
theorem C3_no_hit_clears_candidate_witness :
    ((step s1 (Event.frame [])).currentHitPose = none ∧
      (step s1 (Event.frame [])).reticleVisible = false) ∧
    ((step s2 (Event.frame [some p1])).currentHitPose = some p1 ∧
      (step s2 (Event.frame [some p1])).reticleVisible = true) :=
  ⟨C3_no_hit_clears_candidate.1 s1 rfl rfl,
   ⟨(C3_no_hit_clears_candidate.2 s2 p1 [] rfl rfl).1,
    (C3_no_hit_clears_candidate.2 s2 p1 [] rfl rfl).2.1⟩⟩

/-- C3 counterexample to the claim as frozen: a frame whose result list
contains a resolvable pose (in second position) while the first result's
pose fails to resolve leaves the candidate pose null and the reticle
hidden, though the claim requires the candidate to be updated and the
reticle shown. -/
theorem C3_counterexample :
    (∃ r ∈ [none, some p1], r ≠ (none : Option Pose)) ∧
    (step s2 (Event.frame [none, some p1])).currentHitPose = none ∧
    (step s2 (Event.frame [none, some p1])).reticleVisible = false :=
  ⟨⟨some p1, by simp, by simp⟩, rfl, rfl⟩

/-- C8: the loader returns the vertex position buffer exactly as read
from the file (no per-point rewrite); the mesh-level transform is
written once at load (centring/scale, counted by `initState`) and
exactly once more iff placement happens — two writes in a placed
session, one otherwise, over every event sequence; the scale is never
written after load, and the placement write is a pure translation by the
anchor (plus the fixed floor offset). -/
theorem C8_vertex_data_untouched :
    (∀ (ps : List Vec3) (cs : Option (List ℚ)),
      (loadPointCloud ps cs).positions = ps) ∧
    (∀ (L : LoaderResult) (evs : List Event),
      (run (initState L) evs).transformWrites =
        if (run (initState L) evs).treePlaced then 2 else 1) ∧
    (∀ (evs : List Event) (s : SessState), (run s evs).meshScale = s.meshScale) ∧
    (∀ (s : SessState) (pose : Pose), s.placed = false →
      s.currentHitPose = some pose → s.treePlaced = false →
      s.treeLoaded = true →
      (step s Event.select).meshPos =
        ⟨s.meshPos.x + pose.position.x, s.meshPos.y + pose.position.y - 21 / 20,
         s.meshPos.z + pose.position.z⟩ ∧
      (step s Event.select).meshScale = s.meshScale) := by
  refine ⟨fun ps cs => rfl, ?_, run_meshScale, ?_⟩
  · intro L evs
    exact run_writes_inv evs (initState L) rfl
  · intro s pose hp hc htp htl
    rw [selectStep_effect hp hc htp htl]
    exact ⟨rfl, rfl⟩

/-- Witness for C8: a concrete two-point cloud keeps its vertex data, and
the placement write at a concrete state translates the load-time offset
by the hit position with the floor offset, leaving the scale alone. -/
theorem C8_vertex_data_untouched_witness :
    (loadPointCloud [⟨0, 0, 0⟩, ⟨2, 2, 2⟩] none).positions =
      [⟨0, 0, 0⟩, ⟨2, 2, 2⟩] ∧
    (step s1 Event.select).meshPos =
      ⟨s1.meshPos.x + p1.position.x, s1.meshPos.y + p1.position.y - 21 / 20,
       s1.meshPos.z + p1.position.z⟩ ∧
    (step s1 Event.select).meshScale = s1.meshScale :=
  ⟨C8_vertex_data_untouched.1 _ _,
   (C8_vertex_data_untouched.2.2.2 s1 p1 rfl rfl rfl rfl).1,
   (C8_vertex_data_untouched.2.2.2 s1 p1 rfl rfl rfl rfl).2⟩

/-- C2 evaluated on the snapshot: uniform completeness fails — every
vertex-shader uniform is registered, but the five uniforms of the final
fragment shader variant have no entry in the registry object; the
invariant does hold for the earlier fragment variant. -/
theorem C2_uniform_completeness_violated :
    uniformCompleteness (vertexUniformNames ++ fragUniformNamesFinal) = false ∧
    fragUniformNamesFinal.filter (fun n => !(registryKeys.contains n)) =
      ["glowIntensity", "glowRadius", "uOpacity", "xrLightColor",
       "xrLightIntensity"] ∧
    uniformCompleteness (vertexUniformNames ++ fragUniformNamesEarly) = true := by
  refine ⟨?_, ?_, ?_⟩ <;> decide

/-- C9 evaluated on the snapshot: the per-frame update targets the key
"time", which has no registry entry (the registry declares `uTime`), so
the registry lookup the claim asserts always succeeds in fact fails on
every frame and the batched time write never lands. -/
theorem C9_time_write_fails :
    (∀ now : ℚ, updateUniforms now uniformsRegistry = none) ∧
    registryKeys.contains "uTime" = true ∧
    registryKeys.contains "time" = false := by
  have h : (uniformsRegistry.map Prod.fst).contains "time" = false := by decide
  refine ⟨fun now => ?_, by decide, h⟩
  unfold updateUniforms
  rw [h]
  simp

/-- C6: when the environment light-estimation capability is unavailable,
the shader-visible ambient values default to neutral white at unit
intensity, and the fragment stage's ambient multiplication
(`finalColor *= xrLightColor * xrLightIntensity`) is then the identity
on every colour. -/
theorem C6_ambient_default_white :
    (ambientLightFallback none).color = ⟨1, 1, 1⟩ ∧
    (ambientLightFallback none).intensity = 1 ∧
    ∀ c : Vec3, applyAmbient (ambientLightFallback none) c = c := by
  refine ⟨rfl, rfl, fun c => ?_⟩
  cases c
  simp [applyAmbient, ambientLightFallback]

/-- C10: the 0–255 detection inspects only the first `min(30, length)`
components — the division by 255 is triggered iff one of those sampled
components exceeds 1, and a buffer whose first 30 components are all
≤ 1 is left entirely unchanged (even when components beyond index 29
exceed 1). -/
theorem C10_sampling_window :
    (∀ c : List ℚ, needsNormalise c = true ↔ ∃ x ∈ c.take 30, 1 < x) ∧
    (∀ c : List ℚ, (∀ x ∈ c.take 30, x ≤ 1) → normalizeColors c = c) := by
  constructor
  · intro c
    simp [needsNormalise, List.any_eq_true]
  · intro c h
    have hf : needsNormalise c = false := by
      simp only [needsNormalise, List.any_eq_false, decide_eq_true_eq, not_lt]
      exact h
    simp [normalizeColors, hf]

/-- Witness for C10: a 31-component buffer of thirty 1s followed by 200 is
left entirely unchanged although its last component exceeds 1. -/
theorem C10_sampling_window_witness :
    (∀ x ∈ (List.replicate 30 (1 : ℚ) ++ [200]).take 30, x ≤ 1) ∧
    normalizeColors (List.replicate 30 (1 : ℚ) ++ [200]) =
      List.replicate 30 (1 : ℚ) ++ [200] ∧
    (200 : ℚ) ∈ List.replicate 30 (1 : ℚ) ++ [200] ∧ (1 : ℚ) < 200 := by
  have hx : ∀ x ∈ (List.replicate 30 (1 : ℚ) ++ [200]).take 30, x ≤ 1 := by
    intro x hmem
    rw [List.take_append_of_le_length (by simp)] at hmem
    have := List.eq_of_mem_replicate (List.mem_of_mem_take hmem)
    simp [this]
  exact ⟨hx, C10_sampling_window.2 _ hx, by simp, by norm_num⟩

end Hidden
